import Mathlib

/-!
# Verification of the signalk-mqtt-export rule-matching and dispatch engine

Shallow embedding of the plugin's rule router (the TypeScript plugin entry
module together with `src/types.ts`): export rules, the SignalK delta shapes
the code consumes, the subscription planner (`updateSubscriptions`), the match
engine (`handleSignalKData`), the change filter (`checkValueChange`), the topic
renderer and dispatch (`publishToMQTT`), and the rule-update HTTP handler
(`router.post('/api/rules')`).

JavaScript runtime values that flow through the engine (telemetry values may be
numbers, strings, booleans, null, structured objects, or absent) are modelled
by the closed variant `JSValue`; structured objects are carried by their JSON
serialization, which is the only attribute of them the engine inspects.
Optional / possibly-absent fields are `Option`; JavaScript truthiness on
strings ("" is falsy) and numbers (0 is falsy) is transcribed explicitly at
each use site, mirroring the `||` / `if (x)` patterns of the source.
-/

namespace MQTTExport

/-- A JavaScript runtime value as the engine observes it.  `obj s` is a
structured (non-null `typeof === 'object'`) value whose JSON serialization is
`s`; the engine only ever serializes structured values, so this carries exactly
the information the code uses. -/
inductive JSValue where
  | undef
  | null
  | bool (b : Bool)
  | num (n : Int)
  | str (s : String)
  | obj (json : String)
deriving DecidableEq, Repr

/-- `typeof value === 'object'` — true for `null` and structured objects. -/
def JSValue.typeofObject : JSValue → Bool
  | .null => true
  | .obj _ => true
  | _ => false

/-- `String(value)` for the non-object cases the code reaches. -/
def JSValue.jsString : JSValue → String
  | .undef => "undefined"
  | .null => "null"
  | .bool b => cond b "true" "false"
  | .num n => toString n
  | .str s => s
  | .obj j => j

/-- `JSON.stringify(value)` for the object cases the code reaches. -/
def JSValue.jsonStringify : JSValue → String
  | .null => "null"
  | .obj j => j
  | .undef => "undefined"
  | .bool b => cond b "true" "false"
  | .num n => toString n
  | .str s => s

/-- `typeof value === 'object' ? JSON.stringify(value) : String(value)` —
the serialization used both by the change filter (`checkValueChange`) and the
`value-only` payload format in `publishToMQTT`. -/
def serializeValue (v : JSValue) : String :=
  if v.typeofObject then v.jsonStringify else v.jsString

/-! ## String helpers (character-level transcriptions of the JS operations) -/

/-- ASCII whitespace, as trimmed by `String.prototype.trim` on the inputs the
engine sees. -/
def isWS (c : Char) : Bool :=
  c = ' ' || c = '\t' || c = '\n' || c = '\r'

/-- `s.trim()`. -/
def jsTrim (s : String) : String :=
  String.mk (((s.data.dropWhile isWS).reverse.dropWhile isWS).reverse)

/-- Split a character list on `','` — `s.split(',')` (never returns an empty
list; `"".split(',')` is `[""]`). -/
def splitCommaAux : List Char → List (List Char)
  | [] => [[]]
  | c :: t =>
    let r := splitCommaAux t
    if c = ',' then [] :: r
    else
      match r with
      | h :: rs => (c :: h) :: rs
      | [] => [[c]]

/-- `s.split(',')`. -/
def splitComma (s : String) : List String :=
  (splitCommaAux s.data).map String.mk

/-- Substring containment on character lists (`hay.includes(needle)`). -/
def listContainsSub : List Char → List Char → Bool
  | hay, needle =>
    if needle.isPrefixOf hay then true
    else
      match hay with
      | [] => false
      | _ :: t => listContainsSub t needle

/-- `hay.includes(needle)` — JS substring containment (`"".includes("")` and
`s.includes("")` are `true`). -/
def jsIncludes (hay needle : String) : Bool :=
  listContainsSub hay.data needle.data

/-- `s.startsWith(front)`. -/
def jsStartsWith (s front : String) : Bool :=
  front.data.isPrefixOf s.data

/-- `s.endsWith('*')`. -/
def endsWithStar (s : String) : Bool :=
  match s.data.getLast? with
  | some c => c = '*'
  | none => false

/-- `s.slice(0, -1)` — drop the final character. -/
def sliceDropLast (s : String) : String :=
  String.mk s.data.dropLast

/-- Replace every `'.'` by `'/'` — `s.replace(/\./g, '/')`. -/
def dotsToSlashes (s : String) : String :=
  String.mk (s.data.map fun c => if c = '.' then '/' else c)

/-- Find the first occurrence of `pat` in `hay`, returning the characters
before it and the characters after it. -/
def firstOccSplit : List Char → List Char → Option (List Char × List Char)
  | hay, pat =>
    if pat.isPrefixOf hay then some ([], hay.drop pat.length)
    else
      match hay with
      | [] => none
      | c :: t =>
        match firstOccSplit t pat with
        | some (before, after) => some (c :: before, after)
        | none => none

/-- `s.replace(pat, repl)` with a string pattern — JS replaces only the FIRST
occurrence; if the pattern does not occur the string is unchanged. -/
def jsReplaceFirst (s pat repl : String) : String :=
  match firstOccSplit s.data pat.data with
  | some (before, after) => String.mk (before ++ repl.data ++ after)
  | none => s

/-! ## Data model (from `src/types.ts`)

Fields the TypeScript interfaces mark optional are `Option`; in addition,
fields the plugin defensively guards with JS truthiness even though the
interface declares them required (`period`, `qos`, `retain`, `sendOnChange`,
`payloadFormat` — rule sets arrive unvalidated from the HTTP body) are
modelled with the absent case so those guards are meaningful. -/

/-- `ExportRule` (src/types.ts). `payloadFormat` is kept as the raw string the
code compares against `'value-only'`. -/
structure ExportRule where
  id : String
  name : String
  context : String
  path : String
  source : Option String
  enabled : Bool
  period : Option Nat
  qos : Option Nat
  retain : Option Bool
  payloadFormat : String
  sendOnChange : Option Bool
  topicTemplate : Option String
  excludeMMSI : Option String
deriving DecidableEq, Repr

/-- `SignalKSource` — only `label` is consumed by the engine. -/
structure SignalKSource where
  label : String
deriving DecidableEq, Repr

/-- `SignalKValue` — one `{path, value}` entry of an update. -/
structure SignalKValue where
  path : String
  value : JSValue
deriving DecidableEq, Repr

/-- `SignalKUpdate` — `$source` is `dollarSource`; `values` may be absent
(the code guards `if (!update.values) return`). -/
structure SignalKUpdate where
  dollarSource : Option String
  source : Option SignalKSource
  values : Option (List SignalKValue)
deriving DecidableEq, Repr

/-- `SignalKDelta`; `context` is a plain string (`""` is the falsy case the
code tests with `delta.context &&` / `delta.context ||`), `updates` may be
absent (`if (!delta.updates) return`). -/
structure SignalKDelta where
  context : String
  updates : Option (List SignalKUpdate)
deriving DecidableEq, Repr

/-- One `{path, period}` entry of a subscription request. -/
structure SignalKSubscriptionItem where
  path : String
  period : Nat
deriving DecidableEq, Repr

/-- `SignalKSubscription` — a per-context subscription request. -/
structure SignalKSubscription where
  context : String
  subscribe : List SignalKSubscriptionItem
deriving DecidableEq, Repr

/-- `MQTTExportConfig` (src/types.ts). -/
structure MQTTExportConfig where
  enabled : Bool
  mqttBroker : String
  mqttClientId : String
  mqttUsername : String
  mqttPassword : String
  topicPrefix : String
  exportRules : List ExportRule
deriving Repr

/-- The change filter's last-value store. `state.lastSentValues` is a JS
`Map<string, any>` used only through `get`/`set`; `get` on an absent key
returns `undefined`, so the store is modelled as a total function with
default `JSValue.undef`. -/
def LastValues := String → JSValue

/-- A `Map` with no entries. -/
def LastValues.empty : LastValues := fun _ => JSValue.undef

/-- `map.set(k, v)`. -/
def LastValues.set (m : LastValues) (k : String) (v : JSValue) : LastValues :=
  fun k' => if k' = k then v else m k'

/-- The mutable plugin state the modelled operations touch
(`state` in the plugin module).  `connected` stands for
`state.mqttClient && state.mqttClient.connected`. -/
structure PluginState where
  connected : Bool
  exportRules : List ExportRule
  activeSubscriptions : List (String × List ExportRule)
  lastSentValues : LastValues
  currentConfig : Option MQTTExportConfig

/-- `ValueChangeResult` (src/types.ts); an absent `previousValue` is
`JSValue.undef` exactly as the code materializes it. -/
structure ValueChangeResult where
  hasChanged : Bool
  currentValue : JSValue
  previousValue : JSValue
deriving DecidableEq, Repr

/-! ## Change filter (`checkValueChange`) -/

/-- Transcription of `checkValueChange(context, path, value)`: reads
`state.lastSentValues`, returns the result and the (possibly updated) map.
The code stores the new value both on first observation and on change, and
leaves the map untouched when the serialized forms agree. -/
def checkValueChange (m : LastValues) (context path : String) (value : JSValue) :
    ValueChangeResult × LastValues :=
  let valueKey := context ++ ":" ++ path
  let lastValue := m valueKey
  let currentValueString := serializeValue value
  if lastValue ≠ JSValue.undef ∧ currentValueString = serializeValue lastValue then
    ({ hasChanged := false, currentValue := value, previousValue := lastValue }, m)
  else
    ({ hasChanged := true, currentValue := value, previousValue := lastValue },
      m.set valueKey value)

/-! ## Match engine (the predicate of `contextRules.find(...)` in
`handleSignalKData`) -/

/-- The path check of the match predicate: `r.path === '*'`, exact equality,
or `r.path.endsWith('*')` with `valueUpdate.path.startsWith(r.path.slice(0,-1))`. -/
def pathMatchB (rulePath updatePath : String) : Bool :=
  if rulePath = "*" then true
  else if rulePath = updatePath then true
  else if endsWithStar rulePath then jsStartsWith updatePath (sliceDropLast rulePath)
  else false

/-- `update.$source || update.source?.label` — the origin label the source
check compares against (`none` when both are absent; a falsy `$source` falls
through to the optional label). -/
def effSourceRef (u : SignalKUpdate) : Option String :=
  match u.dollarSource with
  | some d => if d = "" then u.source.map SignalKSource.label else some d
  | none => u.source.map SignalKSource.label

/-- The source check:
`!r.source || !r.source.trim() || r.source === (update.$source || update.source?.label)`. -/
def sourceMatchB (r : ExportRule) (u : SignalKUpdate) : Bool :=
  match r.source with
  | none => true
  | some s =>
    if s = "" then true
    else if jsTrim s = "" then true
    else effSourceRef u = some s

/-- The MMSI-exclusion check: runs only when `r.excludeMMSI` is truthy, its
trim is truthy and `delta.context` is truthy; rejects when any trimmed
comma-entry is a substring of `delta.context`. Returns `true` when the rule
survives the check. -/
def exclusionPassB (r : ExportRule) (deltaContext : String) : Bool :=
  match r.excludeMMSI with
  | none => true
  | some ex =>
    if ex ≠ "" ∧ jsTrim ex ≠ "" ∧ deltaContext ≠ "" then
      let excludedMMSIs := (splitComma ex).map jsTrim
      ! excludedMMSIs.any (fun mmsi => jsIncludes deltaContext mmsi)
    else true

/-- The whole predicate passed to `contextRules.find(r => ...)` in
`handleSignalKData`: enabled, then path match, then source match, then the
exclusion check. -/
def ruleMatches (delta : SignalKDelta) (u : SignalKUpdate) (vu : SignalKValue)
    (r : ExportRule) : Bool :=
  if ¬ r.enabled then false
  else if ¬ pathMatchB r.path vu.path then false
  else if ¬ sourceMatchB r u then false
  else exclusionPassB r delta.context

/-- `contextRules.find(r => ...)` — the first rule passing all checks. -/
def findMatchingRule (delta : SignalKDelta) (u : SignalKUpdate) (vu : SignalKValue)
    (contextRules : List ExportRule) : Option ExportRule :=
  contextRules.find? (ruleMatches delta u vu)

/-! ## Topic renderer, payload formatter and dispatch (`publishToMQTT`) -/

/-- Topic construction in `publishToMQTT`: start from
`state.currentConfig?.topicPrefix` when truthy, then append either the
processed template (tokens substituted first-occurrence, then all dots
replaced) when `rule.topicTemplate` is truthy, or the default
`context/path` with dots replaced. -/
def buildTopic (currentConfig : Option MQTTExportConfig) (r : ExportRule)
    (context path : String) : String :=
  let base :=
    match currentConfig with
    | some cfg => if cfg.topicPrefix ≠ "" then cfg.topicPrefix ++ "/" else ""
    | none => ""
  match r.topicTemplate with
  | some t =>
    if t ≠ "" then
      base ++ dotsToSlashes (jsReplaceFirst (jsReplaceFirst t "{context}" context) "{path}" path)
    else base ++ dotsToSlashes (context ++ "/" ++ path)
  | none => base ++ dotsToSlashes (context ++ "/" ++ path)

/-- The outbound payload.  The `value-only` branch serializes exactly as
`serializeValue`; the default branch is `JSON.stringify(delta)`, carried
symbolically since no property of this development depends on the delta's
JSON byte encoding. -/
inductive MQTTPayload where
  | fullDelta (delta : SignalKDelta)
  | valueOnly (s : String)
deriving DecidableEq, Repr

/-- Payload choice in `publishToMQTT`:
`rule.payloadFormat === 'value-only' ? (typeof value === 'object' ? JSON.stringify(value) : String(value)) : JSON.stringify(delta)`. -/
def buildPayload (r : ExportRule) (delta : SignalKDelta) (value : JSValue) : MQTTPayload :=
  if r.payloadFormat = "value-only" then .valueOnly (serializeValue value)
  else .fullDelta delta

/-- One message handed to `mqttClient.publish`, with the publish options
`{ qos: rule.qos || 0, retain: rule.retain || false }`. -/
structure PublishedMessage where
  topic : String
  payload : MQTTPayload
  qos : Nat
  retain : Bool
deriving DecidableEq, Repr

/-- `n || d` on an optional JS number (`0` and absent are falsy). -/
def jsNumOr (o : Option Nat) (d : Nat) : Nat :=
  match o with
  | some n => if n = 0 then d else n
  | none => d

/-- The message `publishToMQTT` constructs for a given rule and value. -/
def mkMessage (currentConfig : Option MQTTExportConfig) (delta : SignalKDelta)
    (r : ExportRule) (context path : String) (value : JSValue) : PublishedMessage :=
  { topic := buildTopic currentConfig r context path
    payload := buildPayload r delta value
    qos := jsNumOr r.qos 0
    retain := r.retain.getD false }

/-- Transcription of `publishToMQTT(delta, update, valueUpdate, rule)`:
defaults the context, gates on the change filter when `rule.sendOnChange` is
truthy (returning without publishing when unchanged), then builds topic,
payload and options and publishes.  Returns the updated state and the
published message, if any. -/
def publishToMQTT (st : PluginState) (delta : SignalKDelta) (_u : SignalKUpdate)
    (vu : SignalKValue) (r : ExportRule) : PluginState × Option PublishedMessage :=
  let context := if delta.context = "" then "vessels.self" else delta.context
  let path := vu.path
  let value := vu.value
  if r.sendOnChange.getD false then
    let res := checkValueChange st.lastSentValues context path value
    if ¬ res.1.hasChanged then (st, none)
    else
      ({ st with lastSentValues := res.2 },
        some (mkMessage st.currentConfig delta r context path value))
  else
    (st, some (mkMessage st.currentConfig delta r context path value))

/-- Per-value-update step of `handleSignalKData`: find the first matching rule
and, when one exists, publish through it; otherwise nothing happens. -/
def processValueUpdate (st : PluginState) (delta : SignalKDelta) (u : SignalKUpdate)
    (contextRules : List ExportRule) (vu : SignalKValue) :
    PluginState × Option PublishedMessage :=
  match findMatchingRule delta u vu contextRules with
  | some rule => publishToMQTT st delta u vu rule
  | none => (st, none)

/-- Fold of `processValueUpdate` over one update's `values` array. -/
def processUpdate (st : PluginState) (delta : SignalKDelta)
    (contextRules : List ExportRule) (u : SignalKUpdate) :
    PluginState × List PublishedMessage :=
  match u.values with
  | none => (st, [])
  | some vus =>
    vus.foldl
      (fun acc vu =>
        let r := processValueUpdate acc.1 delta u contextRules vu
        (r.1, acc.2 ++ r.2.toList))
      (st, [])

/-- Transcription of `handleSignalKData(delta, contextRules)`: bail out when
`delta.updates` is absent or the MQTT client is not connected, else process
every value of every update in order, threading the change-filter state and
collecting the published messages. -/
def handleSignalKData (st : PluginState) (delta : SignalKDelta)
    (contextRules : List ExportRule) : PluginState × List PublishedMessage :=
  match delta.updates with
  | none => (st, [])
  | some updates =>
    if ¬ st.connected then (st, [])
    else
      updates.foldl
        (fun acc u =>
          let r := processUpdate acc.1 delta contextRules u
          (r.1, acc.2 ++ r.2))
        (st, [])

/-! ## Subscription planner (`updateSubscriptions`) -/

/-- `rule.context || 'vessels.self'`. -/
def effContext (r : ExportRule) : String :=
  if r.context = "" then "vessels.self" else r.context

/-- Append a rule to its context's group, preserving the JS `Map` semantics of
`contextGroups` (insertion order of first occurrence; later rules append to
the existing group's array). -/
def insertGroup : List (String × List ExportRule) → String → ExportRule →
    List (String × List ExportRule)
  | [], ctx, r => [(ctx, [r])]
  | (c, rs) :: t, ctx, r =>
    if c = ctx then (c, rs ++ [r]) :: t
    else (c, rs) :: insertGroup t ctx r

/-- The `contextGroups` map of `updateSubscriptions`: the ENABLED rules grouped
by effective context. -/
def groupByContext (rules : List ExportRule) : List (String × List ExportRule) :=
  (rules.filter ExportRule.enabled).foldl
    (fun groups rule => insertGroup groups (effContext rule) rule) []

/-- The subscription requests `updateSubscriptions` issues: for each context
group, one subscription whose `subscribe` array has ONE entry per rule of the
group, carrying `{path: rule.path, period: rule.period || 1000}`. -/
def buildSubscriptions (exportRules : List ExportRule) : List SignalKSubscription :=
  (groupByContext exportRules).map fun g =>
    { context := g.1
      subscribe := g.2.map fun r => { path := r.path, period := jsNumOr r.period 1000 } }

/-- State effect of `updateSubscriptions()`: tear down and replace
`state.activeSubscriptions` with the freshly computed context groups. -/
def updateSubscriptions (st : PluginState) : PluginState :=
  { st with activeSubscriptions := groupByContext st.exportRules }

/-! ## Rule-update HTTP handler (`router.post('/api/rules')`) -/

/-- The responses the handler can send. -/
inductive ApiRulesResponse where
  | badRequest (error : String)
  | saveFailed (error : String)
  | ok (message : String)
deriving DecidableEq, Repr

/-- Transcription of the `POST /api/rules` handler.  `body` is `none` when
`req.body.rules` is not an array (rejected with 400); `saveOk` is the outcome
the host's `savePluginOptions` reports to the callback.  The handler assigns
`state.exportRules = newRules` BEFORE attempting persistence; on save failure
it answers 500 and does not call `updateSubscriptions()`. -/
def postApiRules (st : PluginState) (body : Option (List ExportRule)) (saveOk : Bool) :
    PluginState × ApiRulesResponse :=
  match body with
  | none => (st, .badRequest "Rules must be an array")
  | some newRules =>
    let st1 := { st with exportRules := newRules }
    if saveOk then
      (updateSubscriptions st1, .ok "Export rules updated and saved")
    else
      (st1, .saveFailed "Failed to save configuration")

/-! ## Spec-side topic renderer (for the refinement comparison)

`renderTopicSpec` follows the specification's words (§4.4 Topic Renderer):
substitute the literal tokens first-occurrence, THEN replace all dots, and
FINALLY prepend the prefix when one is configured; the default scheme renders
`context/path` with dots replaced and the prefix prepended.  It is compared
against `buildTopic`, which transcribes the code (prefix first, replacement
applied to the appended part). -/
def renderTopicSpec (topicPrefixValue : String) (tmpl : Option String)
    (context path : String) : String :=
  let body :=
    match tmpl with
    | some t =>
      if t ≠ "" then
        dotsToSlashes (jsReplaceFirst (jsReplaceFirst t "{context}" context) "{path}" path)
      else dotsToSlashes (context ++ "/" ++ path)
    | none => dotsToSlashes (context ++ "/" ++ path)
  if topicPrefixValue ≠ "" then (topicPrefixValue ++ "/") ++ body else body

/-- `state.currentConfig?.topicPrefix` with the falsy cases collapsed: an
absent config reads as the empty (falsy) prefix, exactly as the code's
optional chaining makes it. -/
def topicPrefixOf : Option MQTTExportConfig → String
  | some cfg => cfg.topicPrefix
  | none => ""

/-- Association lookup in a context-group list (the value `contextGroups.get(c)`
would return, as an `Option`). -/
def lookupGroup (groups : List (String × List ExportRule)) (c : String) :
    Option (List ExportRule) :=
  (groups.find? fun g => g.1 = c).map Prod.snd

/-! ## Concrete fixtures used by the example/witness/counterexample theorems -/

/-- A baseline enabled rule; individual scenarios override single fields. -/
def baseRule : ExportRule :=
  { id := "rule-0", name := "Rule 0", context := "vessels.self", path := "*",
    source := none, enabled := true, period := some 1000, qos := some 0,
    retain := some false, payloadFormat := "full", sendOnChange := none,
    topicTemplate := none, excludeMMSI := none }

/-- An update carrying no origin information. -/
def bareUpdate : SignalKUpdate :=
  { dollarSource := none, source := none, values := none }

/-- A plugin state with a connected client and empty change-filter map. -/
def baseState : PluginState :=
  { connected := true, exportRules := [], activeSubscriptions := [],
    lastSentValues := LastValues.empty, currentConfig := none }

/-- A config whose only relevant part is its topic prefix. -/
def cfgWithTopicPre (p : String) : MQTTExportConfig :=
  { enabled := true, mqttBroker := "mqtt://localhost:1883",
    mqttClientId := "signalk-mqtt-export", mqttUsername := "", mqttPassword := "",
    topicPrefix := p, exportRules := [] }

def c1RuleEarly : ExportRule := { baseRule with id := "early", path := "navigation*" }

def c1RuleLate : ExportRule := { baseRule with id := "late", path := "*" }

def c1Delta : SignalKDelta := { context := "vessels.self", updates := none }

def c1Value : SignalKValue := { path := "navigation.position", value := JSValue.num 1 }

def c2RuleA : ExportRule :=
  { baseRule with id := "a", path := "navigation.speed", period := some 1000 }

def c2RuleB : ExportRule :=
  { baseRule with id := "b", path := "navigation.speed", period := some 500 }

def c3NewRule : ExportRule := { baseRule with id := "new", path := "environment*" }

def c3State : PluginState :=
  { baseState with
    exportRules := [baseRule],
    activeSubscriptions := [("vessels.self", [baseRule])] }

def c4RuleOff : ExportRule := { baseRule with sendOnChange := some false }

def c6Rule : ExportRule := { baseRule with excludeMMSI := some " " }

def c6Delta : SignalKDelta := { context := "abc", updates := none }

def c6Value : SignalKValue := { path := "navigation.position", value := JSValue.null }

def c6RuleTrailing : ExportRule := { baseRule with excludeMMSI := some "a," }

def c6DeltaEmptyCtx : SignalKDelta := { context := "", updates := none }

def c6wRule : ExportRule := { baseRule with excludeMMSI := some "12345" }

def c6wDelta : SignalKDelta := { context := "vessels.urn:mmsi:12345", updates := none }

def c7Rule : ExportRule := { baseRule with source := some "pypilot" }

def c7Update : SignalKUpdate := { bareUpdate with dollarSource := some "gps0" }

def c8RuleTemplM : ExportRule := { baseRule with topicTemplate := some "m/{context}/{path}" }

def c8RuleTemplTwice : ExportRule := { baseRule with topicTemplate := some "{path}/{path}" }

def c9RuleOn : ExportRule := { baseRule with sendOnChange := some true }

def c9Value : SignalKValue := { path := "navigation.position", value := JSValue.undef }

/-! ## Shared helper lemmas -/

theorem string_empty_append (s : String) : "" ++ s = s := rfl

/-- `List.find?` returns the first element satisfying the predicate: from any
witness index `i`, there is a selected index `k ≤ i` on which `find?` fires,
with every earlier index failing the predicate. -/
theorem findFirstAux {α : Type} (p : α → Bool) :
    ∀ (l : List α) (i : ℕ) (hi : i < l.length), p (l.get ⟨i, hi⟩) = true →
      ∃ (k : ℕ) (hk : k < l.length), k ≤ i ∧ l.find? p = some (l.get ⟨k, hk⟩) ∧
        p (l.get ⟨k, hk⟩) = true ∧
        ∀ (m : ℕ) (hm : m < k), p (l.get ⟨m, Nat.lt_trans hm hk⟩) = false
  | [], i, hi => by simp at hi
  | a :: t, i, hi => by
    intro hp
    by_cases hpa : p a = true
    · refine ⟨0, by simp, Nat.zero_le i, ?_, by simpa using hpa, ?_⟩
      · simp [List.find?_cons_of_pos _ hpa]
      · intro m hm; exact absurd hm (Nat.not_lt_zero m)
    · have hpa' : p a = false := by simpa using hpa
      cases i with
      | zero => simp [hpa'] at hp
      | succ i' =>
        have hi' : i' < t.length := by simpa using Nat.lt_of_succ_lt_succ hi
        have hp' : p (t.get ⟨i', hi'⟩) = true := by simpa using hp
        obtain ⟨k, hk, hki, hfind, hpk, hmin⟩ := findFirstAux p t i' hi' hp'
        refine ⟨k + 1, Nat.succ_lt_succ hk, Nat.succ_le_succ hki, ?_, by simpa using hpk, ?_⟩
        · rw [List.find?_cons_of_neg _ (by simp [hpa'])]
          simpa using hfind
        · intro m hm
          cases m with
          | zero => simpa using hpa'
          | succ m' => simpa using hmin m' (Nat.lt_of_succ_lt_succ hm)

theorem lookupGroup_insertGroup_same (groups : List (String × List ExportRule))
    (c : String) (r : ExportRule) :
    lookupGroup (insertGroup groups c r) c =
      some ((lookupGroup groups c).getD [] ++ [r]) := by
  induction groups with
  | nil => simp [insertGroup, lookupGroup]
  | cons g t ih =>
    obtain ⟨c', rs⟩ := g
    by_cases h : c' = c
    · subst h
      simp [insertGroup, lookupGroup, List.find?_cons_of_pos]
    · simp only [insertGroup, if_neg h]
      simpa [lookupGroup, List.find?_cons_of_neg, h] using ih

theorem lookupGroup_insertGroup_ne (groups : List (String × List ExportRule))
    (c c' : String) (r : ExportRule) (h : c' ≠ c) :
    lookupGroup (insertGroup groups c r) c' = lookupGroup groups c' := by
  induction groups with
  | nil => simp [insertGroup, lookupGroup, List.find?_cons, Ne.symm h]
  | cons g t ih =>
    obtain ⟨c₀, rs⟩ := g
    by_cases h0 : c₀ = c
    · subst h0
      simp [insertGroup, lookupGroup, List.find?_cons, Ne.symm h]
    · simp only [insertGroup, if_neg h0]
      by_cases h1 : c₀ = c'
      · subst h1
        simp [lookupGroup, List.find?_cons]
      · simpa [lookupGroup, List.find?_cons, h1] using ih

/-- Lookup after folding `insertGroup` over a rule list: the group of `c`
collects, in order, exactly the rules whose effective context is `c`,
appended to whatever the accumulator already held for `c`. -/
theorem lookupGroup_foldl (rules : List ExportRule) :
    ∀ (groups : List (String × List ExportRule)) (c : String),
      lookupGroup (rules.foldl (fun g r => insertGroup g (effContext r) r) groups) c =
        if (rules.filter fun r => effContext r = c) = [] then lookupGroup groups c
        else some ((lookupGroup groups c).getD [] ++
          (rules.filter fun r => effContext r = c)) := by
  induction rules with
  | nil => intro groups c; simp
  | cons r rest ih =>
    intro groups c
    by_cases h : effContext r = c
    · have hfil : (List.filter (fun x => decide (effContext x = c)) (r :: rest)) =
        r :: List.filter (fun x => decide (effContext x = c)) rest := by
        simp [List.filter_cons, h]
      rw [List.foldl_cons, ih (insertGroup groups (effContext r) r) c, h]
      rw [lookupGroup_insertGroup_same groups c r]
      by_cases hrest : (List.filter (fun x => decide (effContext x = c)) rest) = []
      · simp [hfil, hrest]
      · simp [hfil, hrest, List.append_assoc]
    · have hfil : (List.filter (fun x => decide (effContext x = c)) (r :: rest)) =
        List.filter (fun x => decide (effContext x = c)) rest := by
        simp [List.filter_cons, h]
      rw [List.foldl_cons, ih (insertGroup groups (effContext r) r) c]
      rw [lookupGroup_insertGroup_ne groups (effContext r) c r (fun hc => h hc.symm)]
      simp [hfil]

/-- `find?` on a group list with a key predicate is the lookup paired back
with the key. -/
theorem find?_group_eq_lookup (groups : List (String × List ExportRule)) (c : String) :
    (groups.find? fun g => g.1 = c) = (lookupGroup groups c).map fun rs => (c, rs) := by
  induction groups with
  | nil => simp [lookupGroup]
  | cons g t ih =>
    obtain ⟨c', rs⟩ := g
    by_cases h : c' = c
    · subst h
      simp [lookupGroup, List.find?_cons]
    · simpa [lookupGroup, List.find?_cons, h] using ih

theorem insertGroup_map_fst (groups : List (String × List ExportRule))
    (c : String) (r : ExportRule) :
    (insertGroup groups c r).map Prod.fst =
      if c ∈ groups.map Prod.fst then groups.map Prod.fst
      else groups.map Prod.fst ++ [c] := by
  induction groups with
  | nil => simp [insertGroup]
  | cons g t ih =>
    obtain ⟨c', rs⟩ := g
    by_cases h : c' = c
    · subst h
      simp [insertGroup]
    · simp only [insertGroup, if_neg h, List.map_cons]
      rw [ih]
      by_cases hm : c ∈ t.map Prod.fst
      · simp [hm, Ne.symm h]
      · simp [hm, Ne.symm h]

/-- Folding `insertGroup` preserves distinctness of the group keys. -/
theorem foldl_insertGroup_keys_nodup (rules : List ExportRule) :
    ∀ (groups : List (String × List ExportRule)),
      (groups.map Prod.fst).Nodup →
      (((rules.foldl (fun g r => insertGroup g (effContext r) r) groups)).map Prod.fst).Nodup := by
  induction rules with
  | nil => intro groups h; simpa using h
  | cons r rest ih =>
    intro groups h
    rw [List.foldl_cons]
    refine ih (insertGroup groups (effContext r) r) ?_
    rw [insertGroup_map_fst]
    by_cases hm : effContext r ∈ groups.map Prod.fst
    · simpa [hm] using h
    · simp only [if_neg hm]
      simpa [List.nodup_append, hm] using h

/-- Unchanged-value branch of `checkValueChange`: a defined stored value with
the same serialized form is reported as unchanged and the map is untouched. -/
theorem checkValueChange_unchanged (m : LastValues) (c p : String) (v : JSValue)
    (h : m (c ++ ":" ++ p) ≠ JSValue.undef ∧
      serializeValue v = serializeValue (m (c ++ ":" ++ p))) :
    checkValueChange m c p v =
      ({ hasChanged := false, currentValue := v, previousValue := m (c ++ ":" ++ p) }, m) := by
  simp only [checkValueChange, ne_eq]
  rw [if_pos]
  exact ⟨h.1, h.2⟩

/-- Changed/first-observation branch of `checkValueChange`: otherwise the
value is reported as changed and stored under the key. -/
theorem checkValueChange_changed (m : LastValues) (c p : String) (v : JSValue)
    (h : ¬ (m (c ++ ":" ++ p) ≠ JSValue.undef ∧
      serializeValue v = serializeValue (m (c ++ ":" ++ p)))) :
    checkValueChange m c p v =
      ({ hasChanged := true, currentValue := v, previousValue := m (c ++ ":" ++ p) },
        m.set (c ++ ":" ++ p) v) := by
  simp only [checkValueChange, ne_eq]
  rw [if_neg]
  simpa using h

/-! ## Claim theorems -/

/-- C1: for every context-rule sequence and incoming value update, the match
engine selects the first rule in stored order passing all checks (the
`ruleMatches` conjunction of enabled/path/source/exclusion); when two rules at
positions `i < j` both match, the selected index is at most `i`, every rule
before it fails the checks, and the per-value dispatch is exactly a publish
through the selected rule — no other rule acts. -/
theorem c1_first_match_wins (delta : SignalKDelta) (u : SignalKUpdate)
    (vu : SignalKValue) (rules : List ExportRule) (i j : ℕ)
    (hi : i < rules.length) (hj : j < rules.length) (hij : i < j)
    (hmi : ruleMatches delta u vu (rules.get ⟨i, hi⟩) = true)
    (hmj : ruleMatches delta u vu (rules.get ⟨j, hj⟩) = true) :
    (∀ r : ExportRule,
      ruleMatches delta u vu r =
        (r.enabled && pathMatchB r.path vu.path && sourceMatchB r u &&
          exclusionPassB r delta.context)) ∧
    ∃ (k : ℕ) (hk : k < rules.length), k ≤ i ∧
      findMatchingRule delta u vu rules = some (rules.get ⟨k, hk⟩) ∧
      ruleMatches delta u vu (rules.get ⟨k, hk⟩) = true ∧
      (∀ (m : ℕ) (hm : m < k),
        ruleMatches delta u vu (rules.get ⟨m, Nat.lt_trans hm hk⟩) = false) ∧
      (∀ st : PluginState,
        processValueUpdate st delta u rules vu =
          publishToMQTT st delta u vu (rules.get ⟨k, hk⟩)) := by
  constructor
  · intro r
    cases he : r.enabled <;> cases hp : pathMatchB r.path vu.path <;>
      cases hs : sourceMatchB r u <;> simp [ruleMatches, he, hp, hs]
  obtain ⟨k, hk, hki, hfind, hpk, hmin⟩ :=
    findFirstAux (ruleMatches delta u vu) rules i hi hmi
  refine ⟨k, hk, hki, hfind, hpk, hmin, fun st => ?_⟩
  simp [processValueUpdate, findMatchingRule, hfind]

/-- C1 witness: two enabled rules both match `navigation.position`
(`"navigation*"` at index 0, `"*"` at index 1); the engine selects index 0. -/
theorem c1_first_match_wins_witness :
    (∀ r : ExportRule,
      ruleMatches c1Delta bareUpdate c1Value r =
        (r.enabled && pathMatchB r.path c1Value.path && sourceMatchB r bareUpdate &&
          exclusionPassB r c1Delta.context)) ∧
    ∃ (k : ℕ) (hk : k < ([c1RuleEarly, c1RuleLate] : List ExportRule).length), k ≤ 0 ∧
      findMatchingRule c1Delta bareUpdate c1Value [c1RuleEarly, c1RuleLate] =
        some (([c1RuleEarly, c1RuleLate] : List ExportRule).get ⟨k, hk⟩) ∧
      ruleMatches c1Delta bareUpdate c1Value
        (([c1RuleEarly, c1RuleLate] : List ExportRule).get ⟨k, hk⟩) = true ∧
      (∀ (m : ℕ) (hm : m < k),
        ruleMatches c1Delta bareUpdate c1Value
          (([c1RuleEarly, c1RuleLate] : List ExportRule).get ⟨m, Nat.lt_trans hm hk⟩) = false) ∧
      (∀ st : PluginState,
        processValueUpdate st c1Delta bareUpdate [c1RuleEarly, c1RuleLate] c1Value =
          publishToMQTT st c1Delta bareUpdate c1Value
            (([c1RuleEarly, c1RuleLate] : List ExportRule).get ⟨k, hk⟩)) :=
  c1_first_match_wins c1Delta bareUpdate c1Value [c1RuleEarly, c1RuleLate] 0 1
    (by decide) (by decide) (by decide) (by decide) (by decide)

/-- C5: the path check passes iff the rule path equals the update path, or is
the universal wildcard, or ends in the wildcard marker with the update path
starting with the fixed stem before it; `"navigation*"` matches
`"navigation.position"` and `"navigation"` but not `"electrical.navigation"`. -/
theorem c5_path_wildcard_semantics :
    (∀ rulePath updatePath : String,
      pathMatchB rulePath updatePath = true ↔
        (rulePath = updatePath ∨ rulePath = "*" ∨
          (endsWithStar rulePath = true ∧
            jsStartsWith updatePath (sliceDropLast rulePath) = true)))
    ∧ pathMatchB "navigation*" "navigation.position" = true
    ∧ pathMatchB "navigation*" "navigation" = true
    ∧ pathMatchB "navigation*" "electrical.navigation" = false := by
  refine ⟨?_, by decide, by decide, by decide⟩
  intro rp up
  unfold pathMatchB
  split_ifs with h1 h2 h3
  · simp [h1]
  · simp [h2]
  · simp [h1, h2, h3]
  · simp [h1, h2, h3]

/-- C7: for a rule with a non-blank source the source check passes iff the
rule's source equals the update's origin label (`$source`, falling back to the
source label) exactly and case-sensitively; an empty or blank rule source
matches every update; `source = "pypilot"` never matches origin `"gps0"`. -/
theorem c7_source_filter :
    (∀ (r : ExportRule) (u : SignalKUpdate) (s : String),
      r.source = some s → jsTrim s ≠ "" →
        (sourceMatchB r u = true ↔ effSourceRef u = some s))
    ∧ (∀ (r : ExportRule) (u : SignalKUpdate),
        (r.source = none ∨ ∃ s, r.source = some s ∧ jsTrim s = "") →
          sourceMatchB r u = true)
    ∧ (∀ (r : ExportRule) (u : SignalKUpdate),
        r.source = some "pypilot" → effSourceRef u = some "gps0" →
          sourceMatchB r u = false) := by
  refine ⟨?_, ?_, ?_⟩
  · intro r u s hs ht
    have hs0 : s ≠ "" := fun h => ht (by rw [h]; rfl)
    simp [sourceMatchB, hs, hs0, ht]
  · intro r u h
    rcases h with h | ⟨s, hs, ht⟩
    · simp [sourceMatchB, h]
    · by_cases he : s = ""
      · simp [sourceMatchB, hs, he]
      · simp [sourceMatchB, hs, he, ht]
  · intro r u hs hu
    have h1 : jsTrim "pypilot" ≠ "" := by decide
    simp [sourceMatchB, hs, hu, h1]

/-- C7 witness: the rule with source `"pypilot"` rejects an update whose
`$source` is `"gps0"`. -/
theorem c7_source_filter_witness : sourceMatchB c7Rule c7Update = false :=
  c7_source_filter.2.2 c7Rule c7Update rfl rfl

/-- C9: when the arriving value is `undefined` and the stored entry for the
key is absent/undefined (the only states a stream of undefined values can
produce, since a stored `undefined` is indistinguishable from an absent
entry), the change filter reports a change, the entry remains undefined
afterwards, the immediately repeated `undefined` reports a change again, and
a `sendOnChange` rule therefore dispatches on every such call. -/
theorem c9_undefined_never_baselines :
    (∀ (m : LastValues) (c p : String),
      m (c ++ ":" ++ p) = JSValue.undef →
        (checkValueChange m c p JSValue.undef).1.hasChanged = true ∧
        (checkValueChange m c p JSValue.undef).2 (c ++ ":" ++ p) = JSValue.undef ∧
        (checkValueChange (checkValueChange m c p JSValue.undef).2 c p
          JSValue.undef).1.hasChanged = true)
    ∧ (∀ (st : PluginState) (delta : SignalKDelta) (u : SignalKUpdate)
        (vu : SignalKValue) (r : ExportRule),
        r.sendOnChange = some true → vu.value = JSValue.undef →
        st.lastSentValues ((if delta.context = "" then "vessels.self" else delta.context)
          ++ ":" ++ vu.path) = JSValue.undef →
        ((publishToMQTT st delta u vu r).2).isSome = true) := by
  constructor
  · intro m c p hm
    refine ⟨?_, ?_, ?_⟩
    · simp [checkValueChange, hm]
    · simp [checkValueChange, hm, LastValues.set]
    · simp [checkValueChange, hm, LastValues.set]
  · intro st delta u vu r hr hv hm
    simp [publishToMQTT, hr, hv, checkValueChange, hm]

/-- C9 witness: concrete double-undefined send on a fresh map, and a concrete
`sendOnChange` rule dispatching an undefined value. -/
theorem c9_undefined_never_baselines_witness :
    ((checkValueChange LastValues.empty "vessels.self" "navigation.position"
        JSValue.undef).1.hasChanged = true ∧
      (checkValueChange LastValues.empty "vessels.self" "navigation.position"
        JSValue.undef).2 ("vessels.self" ++ ":" ++ "navigation.position") = JSValue.undef ∧
      (checkValueChange
        (checkValueChange LastValues.empty "vessels.self" "navigation.position"
          JSValue.undef).2 "vessels.self" "navigation.position"
        JSValue.undef).1.hasChanged = true)
    ∧ ((publishToMQTT baseState c1Delta bareUpdate c9Value c9RuleOn).2).isSome = true :=
  ⟨c9_undefined_never_baselines.1 LastValues.empty "vessels.self" "navigation.position" rfl,
    c9_undefined_never_baselines.2 baseState c1Delta bareUpdate c9Value c9RuleOn rfl rfl rfl⟩

/-- C10: a rule whose `sendOnChange` field is absent behaves exactly like
`sendOnChange = false`: the publish outcome is identical, every matching
update is dispatched, the state (hence the last-value map) is untouched, and
the outcome does not depend on the last-value map at all. -/
theorem c10_unset_sendOnChange_is_off :
    ∀ (st : PluginState) (delta : SignalKDelta) (u : SignalKUpdate)
      (vu : SignalKValue) (r : ExportRule),
      r.sendOnChange = none →
        publishToMQTT st delta u vu r =
          publishToMQTT st delta u vu { r with sendOnChange := some false } ∧
        ((publishToMQTT st delta u vu r).2).isSome = true ∧
        (publishToMQTT st delta u vu r).1 = st ∧
        (∀ m : LastValues,
          (publishToMQTT { st with lastSentValues := m } delta u vu r).2 =
            (publishToMQTT st delta u vu r).2) := by
  intro st delta u vu r h
  refine ⟨?_, ?_, ?_, ?_⟩
  · simp [publishToMQTT, h, mkMessage, buildTopic, buildPayload]
  · simp [publishToMQTT, h]
  · simp [publishToMQTT, h]
  · intro m; simp [publishToMQTT, h]

/-- C10 witness: the baseline rule (whose `sendOnChange` is absent) dispatches
and leaves the state unchanged on a concrete update. -/
theorem c10_unset_sendOnChange_is_off_witness :
    publishToMQTT baseState c1Delta bareUpdate c1Value baseRule =
      publishToMQTT baseState c1Delta bareUpdate c1Value
        { baseRule with sendOnChange := some false } ∧
    ((publishToMQTT baseState c1Delta bareUpdate c1Value baseRule).2).isSome = true ∧
    (publishToMQTT baseState c1Delta bareUpdate c1Value baseRule).1 = baseState ∧
    (∀ m : LastValues,
      (publishToMQTT { baseState with lastSentValues := m } c1Delta bareUpdate c1Value
        baseRule).2 =
        (publishToMQTT baseState c1Delta bareUpdate c1Value baseRule).2) :=
  c10_unset_sendOnChange_is_off baseState c1Delta bareUpdate c1Value baseRule rfl

/-- C8: topic rendering is bit-exact.  The code's renderer (`buildTopic`,
prefix prepended first and the dot replacement applied to the appended part)
coincides on every input with the specification-side renderer
(`renderTopicSpec`, substitute tokens, then replace dots, then prepend the
prefix); the three concrete renderings of the spec hold; and token
substitution is single-occurrence, as the last conjunct exhibits. -/
theorem c8_topic_rendering :
    (∀ (cfg : Option MQTTExportConfig) (r : ExportRule) (context path : String),
      buildTopic cfg r context path =
        renderTopicSpec (topicPrefixOf cfg) r.topicTemplate context path)
    ∧ buildTopic (some (cfgWithTopicPre "")) baseRule "vessels.self" "navigation.position" =
        "vessels/self/navigation/position"
    ∧ buildTopic (some (cfgWithTopicPre "marine")) baseRule "vessels.self"
        "navigation.position" = "marine/vessels/self/navigation/position"
    ∧ buildTopic (some (cfgWithTopicPre "")) c8RuleTemplM "vessels.self"
        "navigation.position" = "m/vessels/self/navigation/position"
    ∧ buildTopic (some (cfgWithTopicPre "")) c8RuleTemplTwice "ctx" "a.b" = "a/b/{path}" := by
  refine ⟨?_, by decide, by decide, by decide, by decide⟩
  intro cfg r context path
  have hbody : ∀ base : String,
      (match r.topicTemplate with
        | some t =>
          if t ≠ "" then
            base ++ dotsToSlashes
              (jsReplaceFirst (jsReplaceFirst t "{context}" context) "{path}" path)
          else base ++ dotsToSlashes (context ++ "/" ++ path)
        | none => base ++ dotsToSlashes (context ++ "/" ++ path)) =
      base ++ (match r.topicTemplate with
        | some t =>
          if t ≠ "" then
            dotsToSlashes (jsReplaceFirst (jsReplaceFirst t "{context}" context) "{path}" path)
          else dotsToSlashes (context ++ "/" ++ path)
        | none => dotsToSlashes (context ++ "/" ++ path)) := by
    intro base
    cases r.topicTemplate with
    | none => rfl
    | some t =>
      by_cases ht : t = ""
      · simp [ht]
      · simp [ht]
  cases cfg with
  | none =>
    rw [buildTopic, renderTopicSpec.eq_def, topicPrefixOf]
    simp only [ne_eq, not_true_eq_false, if_false, hbody, string_empty_append]
  | some c =>
    rw [buildTopic, renderTopicSpec.eq_def, topicPrefixOf]
    by_cases hp : c.topicPrefix = ""
    · simp only [hp, ne_eq, not_true_eq_false, if_false, hbody, string_empty_append]
    · simp only [ne_eq, hp, not_false_eq_true, if_true, hbody]

/-- C4 counterexample: the claim demands that an immediately repeated
identical value yield exactly one dispatch (the second call returning false),
for EVERY value.  With the value `undefined` — two identical sends — both
calls dispatch under `sendOnChange = true`: the second call's `hasChanged` is
`true` where the claim requires `false`, and both publishes go out. -/
theorem c4_counterexample :
    (checkValueChange LastValues.empty "vessels.self" "navigation.position"
      JSValue.undef).1.hasChanged = true ∧
    (checkValueChange
      (checkValueChange LastValues.empty "vessels.self" "navigation.position"
        JSValue.undef).2 "vessels.self" "navigation.position"
      JSValue.undef).1.hasChanged = true ∧
    ((publishToMQTT baseState c1Delta bareUpdate c9Value c9RuleOn).2).isSome = true ∧
    ((publishToMQTT (publishToMQTT baseState c1Delta bareUpdate c9Value c9RuleOn).1
      c1Delta bareUpdate c9Value c9RuleOn).2).isSome = true := by
  refine ⟨rfl, rfl, rfl, rfl⟩

/-- C4 (amended to defined values): under `sendOnChange = true`, for every
value other than `undefined`: the first observation of a key reports a change
and records (establishing the baseline); an immediately repeated value with
the same serialized form reports no change; a value whose serialized form
differs from the stored one reports a change; and a rule with
`sendOnChange = false` leaves the state untouched and dispatches every
update without consulting the filter.  (A value of `undefined` never
establishes a baseline and is re-dispatched every time.) -/
theorem c4_change_filter_defined_values :
    (∀ (m : LastValues) (c p : String) (v : JSValue), v ≠ JSValue.undef →
      (m (c ++ ":" ++ p) = JSValue.undef →
        (checkValueChange m c p v).1.hasChanged = true ∧
        (checkValueChange m c p v).2 (c ++ ":" ++ p) = v) ∧
      (checkValueChange (checkValueChange m c p v).2 c p v).1.hasChanged = false ∧
      (∀ w : JSValue, serializeValue w ≠ serializeValue v →
        (checkValueChange (checkValueChange m c p v).2 c p w).1.hasChanged = true))
    ∧ (∀ (st : PluginState) (delta : SignalKDelta) (u : SignalKUpdate)
        (vu : SignalKValue) (r : ExportRule), r.sendOnChange = some false →
        (publishToMQTT st delta u vu r).1 = st ∧
        ((publishToMQTT st delta u vu r).2).isSome = true) := by
  constructor
  · intro m c p v hv
    refine ⟨?_, ?_, ?_⟩
    · intro hm
      rw [checkValueChange_changed m c p v (by simp [hm])]
      simp [LastValues.set]
    · by_cases h1 : m (c ++ ":" ++ p) ≠ JSValue.undef ∧
        serializeValue v = serializeValue (m (c ++ ":" ++ p))
      · rw [checkValueChange_unchanged m c p v h1]
        rw [checkValueChange_unchanged m c p v h1]
      · rw [checkValueChange_changed m c p v h1]
        rw [checkValueChange_unchanged (m.set (c ++ ":" ++ p) v) c p v
          (by simp [LastValues.set, hv])]
    · intro w hw
      by_cases h1 : m (c ++ ":" ++ p) ≠ JSValue.undef ∧
        serializeValue v = serializeValue (m (c ++ ":" ++ p))
      · rw [checkValueChange_unchanged m c p v h1]
        rw [checkValueChange_changed m c p w
          (by rintro ⟨-, hser⟩; exact hw (hser.trans h1.2.symm))]
      · rw [checkValueChange_changed m c p v h1]
        rw [checkValueChange_changed (m.set (c ++ ":" ++ p) v) c p w
          (by rintro ⟨-, hser⟩; rw [LastValues.set] at hser; simp at hser; exact hw hser)]
  · intro st delta u vu r h
    constructor
    · simp [publishToMQTT, h]
    · simp [publishToMQTT, h]

/-- C4 witness: a numeric value repeated is suppressed, a changed numeric
value dispatches again, and a `sendOnChange = false` rule leaves the state
untouched. -/
theorem c4_change_filter_defined_values_witness :
    (checkValueChange
      (checkValueChange LastValues.empty "vessels.self" "navigation.speed"
        (JSValue.num 5)).2 "vessels.self" "navigation.speed"
      (JSValue.num 5)).1.hasChanged = false ∧
    (checkValueChange
      (checkValueChange LastValues.empty "vessels.self" "navigation.speed"
        (JSValue.num 5)).2 "vessels.self" "navigation.speed"
      (JSValue.num 6)).1.hasChanged = true ∧
    (publishToMQTT baseState c1Delta bareUpdate c1Value c4RuleOff).1 = baseState :=
  ⟨(c4_change_filter_defined_values.1 LastValues.empty "vessels.self" "navigation.speed"
      (JSValue.num 5) (by decide)).2.1,
    (c4_change_filter_defined_values.1 LastValues.empty "vessels.self" "navigation.speed"
      (JSValue.num 5) (by decide)).2.2 (JSValue.num 6) (by decide),
    (c4_change_filter_defined_values.2 baseState c1Delta bareUpdate c1Value c4RuleOff
      rfl).1⟩

/-- C6 counterexample, two scenarios the claim forbids but the code allows.
(1) `excludeMMSI = " "`: a non-empty exclusion list whose single trimmed
comma-entry is `""`, a substring of the context `"abc"`, yet the rule matches
— the code skips the whole check because the blank string trims to a falsy
value.  (2) `excludeMMSI = "a,"` (non-blank) against an update with empty
context: the trimmed entry `""` is a substring of that context, yet the rule
matches — the code skips the check because the empty context is falsy. -/
theorem c6_counterexample :
    (c6Rule.excludeMMSI = some " " ∧
      (splitComma " ").map jsTrim ≠ [] ∧
      (∀ e ∈ (splitComma " ").map jsTrim, jsIncludes c6Delta.context e = true) ∧
      ruleMatches c6Delta bareUpdate c6Value c6Rule = true) ∧
    (c6RuleTrailing.excludeMMSI = some "a," ∧
      jsTrim "a," ≠ "" ∧
      (∃ e ∈ (splitComma "a,").map jsTrim, jsIncludes c6DeltaEmptyCtx.context e = true) ∧
      ruleMatches c6DeltaEmptyCtx bareUpdate c6Value c6RuleTrailing = true) := by
  refine ⟨⟨rfl, by decide, by decide, by decide⟩, rfl, by decide, ⟨"", by decide, by decide⟩, by decide⟩

/-- C6 (amended): for every rule whose `excludeKeys` trims to a non-empty
string and every update whose context identifier is non-empty, the rule never
matches when the context contains any trimmed comma-entry of the list as a
substring, even when path and source checks would pass.  (A whitespace-only
`excludeKeys`, or an empty context, disables the exclusion check.) -/
theorem c6_exclusion_nonblank (r : ExportRule) (delta : SignalKDelta)
    (u : SignalKUpdate) (vu : SignalKValue) (ex : String)
    (hex : r.excludeMMSI = some ex) (htrim : jsTrim ex ≠ "")
    (hctx : delta.context ≠ "") (e : String)
    (he : e ∈ (splitComma ex).map jsTrim)
    (hinc : jsIncludes delta.context e = true) :
    ruleMatches delta u vu r = false := by
  have hex0 : ex ≠ "" := fun h => htrim (by rw [h]; rfl)
  have hany : ((splitComma ex).map jsTrim).any
      (fun mmsi => jsIncludes delta.context mmsi) = true :=
    List.any_eq_true.mpr ⟨e, he, hinc⟩
  have hfail : exclusionPassB r delta.context = false := by
    simp only [exclusionPassB, hex]
    rw [if_pos ⟨hex0, htrim, hctx⟩, hany]
    rfl
  rw [ruleMatches]
  split_ifs <;> first | rfl | exact hfail

/-- C6 witness: the spec's own scenario — `excludeKeys = "12345"` and a
context identifier containing `"12345"` — is rejected. -/
theorem c6_exclusion_nonblank_witness :
    ruleMatches c6wDelta bareUpdate c6Value c6wRule = false :=
  c6_exclusion_nonblank c6wRule c6wDelta bareUpdate c6Value "12345" rfl
    (by decide) (by decide) "12345" (by decide) (by decide)

/-- C2 counterexample: two enabled rules in the same context with the same
path (`"navigation.speed"`, periods 1000 and 500) yield TWO subscription
entries, one per rule with that rule's own period — not the single
(path, min-period) entry the claim predicts. -/
theorem c2_counterexample :
    buildSubscriptions [c2RuleA, c2RuleB] =
      [{ context := "vessels.self",
         subscribe := [{ path := "navigation.speed", period := 1000 },
                       { path := "navigation.speed", period := 500 }] }] ∧
    ((buildSubscriptions [c2RuleA, c2RuleB]).map fun s => s.subscribe.length) = [2] ∧
    buildSubscriptions [c2RuleA, c2RuleB] ≠
      [{ context := "vessels.self",
         subscribe := [{ path := "navigation.speed", period := 500 }] }] := by
  refine ⟨by decide, by decide, by decide⟩

/-- C2 (amended): the planner groups the enabled rules by effective context —
exactly one subscription per context that has an enabled rule, none otherwise
— and within each context group requests ONE subscription entry PER RULE, in
rule order, each carrying that rule's own period (defaulting to 1000 when the
period is unset or zero); duplicate paths therefore produce duplicate entries
and no minimum across rules is computed. -/
theorem c2_planner_entry_per_rule :
    ∀ (rules : List ExportRule) (c : String),
      ((buildSubscriptions rules).map SignalKSubscription.context).Nodup ∧
      ((buildSubscriptions rules).find? fun s => s.context = c) =
        (if ((rules.filter ExportRule.enabled).filter fun r => effContext r = c) = []
         then none
         else some
           { context := c,
             subscribe :=
               (((rules.filter ExportRule.enabled).filter fun r => effContext r = c).map
                 fun r => { path := r.path, period := jsNumOr r.period 1000 }) }) := by
  intro rules c
  constructor
  · have hmap : (buildSubscriptions rules).map SignalKSubscription.context =
        (groupByContext rules).map Prod.fst := by
      simp [buildSubscriptions, List.map_map]
    rw [hmap, groupByContext]
    exact foldl_insertGroup_keys_nodup (rules.filter ExportRule.enabled) [] (by simp)
  · have hfind : ((buildSubscriptions rules).find? fun s => s.context = c) =
        ((groupByContext rules).find? fun g => g.1 = c).map fun g =>
          { context := g.1,
            subscribe := g.2.map fun r => { path := r.path, period := jsNumOr r.period 1000 } } := by
      rw [buildSubscriptions, List.find?_map]
      rfl
    rw [hfind, find?_group_eq_lookup, groupByContext,
      lookupGroup_foldl (rules.filter ExportRule.enabled) [] c]
    split_ifs with hsel
    · rfl
    · rfl

/-- C3 counterexample: with persistence failing, the handler has ALREADY
replaced the in-memory rule set with the new rules (it assigns before
saving), so "the in-memory rule set is left unchanged" is false — while the
active subscriptions indeed stay untouched and the failure is surfaced. -/
theorem c3_counterexample :
    (postApiRules c3State (some [c3NewRule]) false).1.exportRules = [c3NewRule] ∧
    (postApiRules c3State (some [c3NewRule]) false).1.exportRules ≠
      c3State.exportRules ∧
    (postApiRules c3State (some [c3NewRule]) false).1.activeSubscriptions =
      c3State.activeSubscriptions ∧
    (postApiRules c3State (some [c3NewRule]) false).2 =
      ApiRulesResponse.saveFailed "Failed to save configuration" := by
  refine ⟨rfl, by decide, rfl, rfl⟩

/-- C3 (amended): when persisting a rule-set update fails, the active
subscriptions are not rebuilt (the prior subscription plan, with the rules it
captured, remains in force) and the failure is surfaced to the caller as the
500 save-failure response; the in-memory `exportRules` field, however, has
already been overwritten with the new rules before the save attempt. -/
theorem c3_save_failure_no_rebuild :
    ∀ (st : PluginState) (newRules : List ExportRule),
      (postApiRules st (some newRules) false).1.activeSubscriptions =
        st.activeSubscriptions ∧
      (postApiRules st (some newRules) false).2 =
        ApiRulesResponse.saveFailed "Failed to save configuration" ∧
      (postApiRules st (some newRules) false).1.exportRules = newRules := by
  intro st newRules
  refine ⟨rfl, rfl, rfl⟩

end MQTTExport
